import Mathlib

/-!
Verification development for the GitHub event viewer's event-classification,
relationship-linking, grouping and report pipeline
(src/app/utils/event-helpers.ts, the report helpers embedded in the same
module, and the fetch path of the main app component).

The TypeScript data model (src/app/types, GitHubEvent and friends) is embedded
as Lean structures; optional fields become Option, JavaScript truthiness checks
on numbers and strings are made explicit (0 and the empty string are falsy).
Dates are modelled by their ISO-8601 timestamp strings, whose lexicographic
order coincides with chronological order.
-/

/-- actor / user objects: only the login is consulted by the helpers. -/
structure User where
  login : String
deriving DecidableEq

/-- repo field of an event. -/
structure Repo where
  name : String
deriving DecidableEq

/-- payload.pull_request: number, title and html_url are required by the
type declaration; merged, merged_by, user and body are optional. -/
structure PullRequest where
  number : Nat
  title : String
  html_url : String
  merged : Option Bool := none
  merged_by : Option User := none
  user : Option User := none
  body : Option String := none
deriving DecidableEq

/-- payload.issue: pull_request holds the html_url of the marker object that
is present exactly on issues that are really pull requests. -/
structure Issue where
  number : Nat
  title : String
  html_url : String
  pull_request : Option String := none
deriving DecidableEq

/-- payload.comment. -/
structure Comment where
  html_url : String
deriving DecidableEq

/-- payload.review. -/
structure Review where
  state : String
deriving DecidableEq

/-- payload.release. -/
structure Release where
  html_url : String
deriving DecidableEq

/-- The loosely typed payload bag: only the fields read by the functions
under verification are embedded. -/
structure Payload where
  action : Option String := none
  pull_request : Option PullRequest := none
  issue : Option Issue := none
  comment : Option Comment := none
  review : Option Review := none
  release : Option Release := none
  head : Option String := none
deriving DecidableEq

/-- One activity record of the feed. -/
structure GitHubEvent where
  id : String
  type : String
  created_at : String
  actor : User
  repo : Repo
  payload : Payload
deriving DecidableEq

/-- JavaScript `a || b` on an optional string: undefined and "" are falsy. -/
def jsStrOr (a : Option String) (b : String) : String :=
  match a with
  | some s => if s ≠ "" then s else b
  | none => b

/-- getEventCategory (src/app/utils/event-helpers.ts): switch on event.type. -/
def getEventCategory (event : GitHubEvent) : String :=
  if event.type == "PullRequestEvent" || event.type == "PullRequestReviewEvent"
      || event.type == "PullRequestReviewCommentEvent" then
    "Pull Requests"
  else if event.type == "IssuesEvent" || event.type == "IssueCommentEvent" then
    "Issues"
  else if event.type == "PushEvent" then
    "Commits"
  else if event.type == "CreateEvent" || event.type == "DeleteEvent"
      || event.type == "ForkEvent" || event.type == "WatchEvent"
      || event.type == "ReleaseEvent" || event.type == "PublicEvent"
      || event.type == "MemberEvent" || event.type == "GollumEvent" then
    "Repository"
  else
    "Other"

/-- getEventUrl (src/app/utils/event-helpers.ts).  In the PushEvent branch the
template literal stringifies an undefined head as "undefined". -/
def getEventUrl (event : GitHubEvent) : String :=
  let repoUrl := "https://github.com/" ++ event.repo.name
  if event.type == "PushEvent" then
    repoUrl ++ "/commit/" ++ (event.payload.head.getD "undefined")
  else if event.type == "IssuesEvent" then
    jsStrOr (event.payload.issue.map Issue.html_url) repoUrl
  else if event.type == "PullRequestEvent" then
    jsStrOr (event.payload.pull_request.map PullRequest.html_url) repoUrl
  else if event.type == "IssueCommentEvent" then
    jsStrOr (event.payload.comment.map Comment.html_url) repoUrl
  else if event.type == "ReleaseEvent" then
    jsStrOr (event.payload.release.map Release.html_url) repoUrl
  else
    repoUrl

/-- The fixed discriminant-tag-to-category mapping table of the spec (§4.1). -/
def categoryTable : List (String × String) :=
  [("PullRequestEvent", "Pull Requests"),
   ("PullRequestReviewEvent", "Pull Requests"),
   ("PullRequestReviewCommentEvent", "Pull Requests"),
   ("IssuesEvent", "Issues"),
   ("IssueCommentEvent", "Issues"),
   ("PushEvent", "Commits"),
   ("CreateEvent", "Repository"),
   ("DeleteEvent", "Repository"),
   ("ForkEvent", "Repository"),
   ("WatchEvent", "Repository"),
   ("ReleaseEvent", "Repository"),
   ("PublicEvent", "Repository"),
   ("MemberEvent", "Repository"),
   ("GollumEvent", "Repository")]

/-- C8: getEventCategory is a pure total function with no error path: on every
event whose tag occurs in the fixed mapping table it returns the documented
category, and on every event with any other tag it returns "Other". -/
theorem C8_classifier_total_table (e : GitHubEvent) :
    getEventCategory e =
      (((categoryTable.find? (fun p => e.type == p.1)).map Prod.snd).getD "Other") := by
  by_cases h1 : e.type = "PullRequestEvent"
  · simp [getEventCategory, categoryTable, h1]
  by_cases h2 : e.type = "PullRequestReviewEvent"
  · simp [getEventCategory, categoryTable, h2]
  by_cases h3 : e.type = "PullRequestReviewCommentEvent"
  · simp [getEventCategory, categoryTable, h3]
  by_cases h4 : e.type = "IssuesEvent"
  · simp [getEventCategory, categoryTable, h4]
  by_cases h5 : e.type = "IssueCommentEvent"
  · simp [getEventCategory, categoryTable, h5]
  by_cases h6 : e.type = "PushEvent"
  · simp [getEventCategory, categoryTable, h6]
  by_cases h7 : e.type = "CreateEvent"
  · simp [getEventCategory, categoryTable, h7]
  by_cases h8 : e.type = "DeleteEvent"
  · simp [getEventCategory, categoryTable, h8]
  by_cases h9 : e.type = "ForkEvent"
  · simp [getEventCategory, categoryTable, h9]
  by_cases h10 : e.type = "WatchEvent"
  · simp [getEventCategory, categoryTable, h10]
  by_cases h11 : e.type = "ReleaseEvent"
  · simp [getEventCategory, categoryTable, h11]
  by_cases h12 : e.type = "PublicEvent"
  · simp [getEventCategory, categoryTable, h12]
  by_cases h13 : e.type = "MemberEvent"
  · simp [getEventCategory, categoryTable, h13]
  by_cases h14 : e.type = "GollumEvent"
  · simp [getEventCategory, categoryTable, h14]
  simp [getEventCategory, categoryTable,
    h1, h2, h3, h4, h5, h6, h7, h8, h9, h10, h11, h12, h13, h14]

/-! ## Linker (findRelatedEvents, src/app/utils/event-helpers.ts lines 85-146) -/

/-- RelatedEvents (src/app/types/github): at most one issue, at most one
pull request, and a list of comment records per LinkKey. -/
structure RelatedEvents where
  issue : Option GitHubEvent := none
  pr : Option GitHubEvent := none
  comments : List GitHubEvent := []
deriving DecidableEq

/-- The linker's Map, as an insertion-ordered association list with unique
keys (the operations below maintain uniqueness exactly like a JS Map). -/
abbrev RMap := List (String × RelatedEvents)

/-- Map.get. -/
def rget (m : RMap) (k : String) : Option RelatedEvents :=
  (m.find? (fun kv => kv.1 == k)).map Prod.snd

/-- Map.has. -/
def rhas (m : RMap) (k : String) : Bool :=
  m.any (fun kv => kv.1 == k)

/-- Map.set: update in place when the key exists, append otherwise. -/
def rset (m : RMap) (k : String) (v : RelatedEvents) : RMap :=
  if rhas m k then m.map (fun kv => if kv.1 == k then (k, v) else kv)
  else m ++ [(k, v)]

/-- Map.delete. -/
def rdelete (m : RMap) (k : String) : RMap :=
  m.filter (fun kv => kv.1 != k)

/-- JavaScript character class \s (the ASCII part; the bodies under
consideration use plain spaces). -/
def isSpaceChar (c : Char) : Bool :=
  c == ' ' || c == '\t' || c == '\n' || c == '\r' || c == '\x0b' || c == '\x0c'

def isDigitChar (c : Char) : Bool :=
  '0' ≤ c && c ≤ '9'

/-- Case-insensitive literal-prefix test (the i flag of the regex). -/
def startsWithCI (kw : List Char) (l : List Char) : Bool :=
  (l.take kw.length).map Char.toLower == kw

/-- Try to match the regex (?:fixes|closes|resolves)\s+#(\d+) (case
insensitively) at the head of l; on success return the matched text and the
remainder of l after the match.  \s+ and \d+ are greedy; since the character
after the whitespace run must be '#', greedy matching needs no backtracking
here, and the three alternatives start with distinct letters. -/
def matchClosingAt (l : List Char) : Option (List Char × List Char) :=
  let tryKw : List Char → Option (List Char × List Char) := fun kw =>
    if startsWithCI kw l then
      let afterKw := l.drop kw.length
      let sp := afterKw.takeWhile isSpaceChar
      if sp.isEmpty then none
      else
        match afterKw.drop sp.length with
        | '#' :: rest =>
          let ds := rest.takeWhile isDigitChar
          if ds.isEmpty then none
          else some (l.take kw.length ++ sp ++ '#' :: ds, rest.drop ds.length)
        | _ => none
    else none
  (tryKw "fixes".data).orElse fun _ =>
    (tryKw "closes".data).orElse fun _ =>
      tryKw "resolves".data

/-- Global regex scan: find the leftmost match, emit it, continue after its
end; advance one character when no match starts here.  The fuel argument is
an upper bound on the number of steps; every step consumes at least one
character, so l.length fuel suffices (see scanClosing). -/
def scanClosingAux : Nat → List Char → List (List Char)
  | 0, _ => []
  | _, [] => []
  | fuel + 1, c :: rest =>
    match matchClosingAt (c :: rest) with
    | some (m, after) => m :: scanClosingAux fuel after
    | none => scanClosingAux fuel rest

/-- pr.body.match(/(?:fixes|closes|resolves)\s+#(\d+)/gi): the list of all
non-overlapping leftmost matches. -/
def scanClosing (l : List Char) : List (List Char) :=
  scanClosingAux l.length l

/-- match(/\d+/)?.[0]: the first maximal run of digits of a string. -/
def firstDigitRun : List Char → List Char
  | [] => []
  | c :: rest =>
    if isDigitChar c then (c :: rest).takeWhile isDigitChar
    else firstDigitRun rest

/-- First pass of findRelatedEvents: collect pull requests and issues (only
when the key is not already present), and append comment records to the
existing or a fresh entry.  JS truthiness: a pull request or issue number 0
would be falsy, hence the explicit != 0 tests. -/
def firstPassStep (m : RMap) (event : GitHubEvent) : RMap :=
  if event.type == "PullRequestEvent"
      && (event.payload.pull_request.map PullRequest.number).getD 0 != 0 then
    match event.payload.pull_request with
    | some pr =>
      let key := event.repo.name ++ "#" ++ Nat.repr pr.number
      if rhas m key then m
      else rset m key { pr := some event, comments := [] }
    | none => m
  else if event.type == "IssuesEvent"
      && (event.payload.issue.map Issue.number).getD 0 != 0 then
    match event.payload.issue with
    | some issue =>
      let key := event.repo.name ++ "#" ++ Nat.repr issue.number
      if rhas m key then m
      else rset m key { issue := some event, comments := [] }
    | none => m
  else if event.type == "IssueCommentEvent"
      || event.type == "PullRequestReviewCommentEvent" then
    let number :=
      match event.payload.issue.map Issue.number with
      | some n => if n != 0 then some n else event.payload.pull_request.map PullRequest.number
      | none => event.payload.pull_request.map PullRequest.number
    match number with
    | some n =>
      if n != 0 then
        let key := event.repo.name ++ "#" ++ Nat.repr n
        let existing := (rget m key).getD { comments := [] }
        rset m key { existing with comments := existing.comments ++ [event] }
      else m
    | none => m
  else m

/-- Second pass of findRelatedEvents: scan each pull request's body for
closing references; whenever both the issue-keyed entry and the
pull-request-keyed entry exist, merge them into the issue-keyed entry
(concatenating the comment lists) and delete the pull-request-keyed entry. -/
def secondPassStep (m : RMap) (event : GitHubEvent) : RMap :=
  if event.type == "PullRequestEvent"
      && (event.payload.pull_request.map PullRequest.number).getD 0 != 0 then
    match event.payload.pull_request with
    | some pr =>
      match pr.body with
      | some body =>
        if body ≠ "" then
          (scanClosing body.data).foldl (fun m mtch =>
            let issueNumber := firstDigitRun mtch
            if issueNumber.isEmpty then m
            else
              let issueKey := event.repo.name ++ "#" ++ String.mk issueNumber
              let prKey := event.repo.name ++ "#" ++ Nat.repr pr.number
              match rget m issueKey, rget m prKey with
              | some issueData, some prData =>
                rdelete
                  (rset m issueKey
                    { issueData with
                      pr := prData.pr
                      comments := issueData.comments ++ prData.comments })
                  prKey
              | _, _ => m) m
        else m
      | none => m
    | none => m
  else m

/-- findRelatedEvents (src/app/utils/event-helpers.ts). -/
def findRelatedEvents (events : List GitHubEvent) : RMap :=
  events.foldl secondPassStep (events.foldl firstPassStep [])

/-! ## Supporting facts about Nat.repr -/

theorem toDigitsCore_len_le (b fuel n : Nat) (ds : List Char) :
    ds.length ≤ (Nat.toDigitsCore b fuel n ds).length := by
  induction fuel generalizing n ds with
  | zero => simp [Nat.toDigitsCore]
  | succ f ih =>
    simp only [Nat.toDigitsCore]
    split
    · simp
    · calc ds.length ≤ ((n % b).digitChar :: ds).length := Nat.le_succ _
        _ ≤ _ := ih _ _

theorem repr_data_ne_nil (n : Nat) : (Nat.repr n).data ≠ [] := by
  have h : (Nat.toDigits 10 n) ≠ [] := by
    unfold Nat.toDigits
    simp only [Nat.toDigitsCore]
    split
    · simp
    · intro hc
      have := toDigitsCore_len_le 10 n (n / 10) [Nat.digitChar (n % 10)]
      rw [hc] at this
      simp at this
  simpa [Nat.repr, List.asString] using h

/-! ## C10: comment records preempt the first-pass entry for a key -/

/-- An IssueCommentEvent on issue r#5 that arrives first in the feed. -/
def commentEventC10 : GitHubEvent :=
  { id := "c1", type := "IssueCommentEvent", created_at := "2024-03-20T10:00:00Z",
    actor := { login := "alice" }, repo := { name := "r" },
    payload := { issue := some { number := 5, title := "Bug", html_url := "https://github.com/r/issues/5" },
                 comment := some { html_url := "https://github.com/r/issues/5#issuecomment-1" } } }

/-- An IssuesEvent for the same issue r#5, processed after the comment. -/
def issueEventC10 : GitHubEvent :=
  { id := "i1", type := "IssuesEvent", created_at := "2024-03-20T11:00:00Z",
    actor := { login := "alice" }, repo := { name := "r" },
    payload := { action := some "opened",
                 issue := some { number := 5, title := "Bug", html_url := "https://github.com/r/issues/5" } } }

/-- A PullRequestEvent whose pull request number also yields key r#5,
processed after the comment. -/
def prEventC10 : GitHubEvent :=
  { id := "p1", type := "PullRequestEvent", created_at := "2024-03-20T12:00:00Z",
    actor := { login := "alice" }, repo := { name := "r" },
    payload := { action := some "opened",
                 pull_request := some { number := 5, title := "Fix", html_url := "https://github.com/r/pull/5" } } }

/-- C10: a comment record referencing r#5 creates the entry for that key, and
the IssuesEvent and PullRequestEvent for the same key that are processed
afterwards are silently dropped: the returned entry holds the comment while
both its issue and pr fields are absent. -/
theorem C10_comment_preempts_first_pass :
    findRelatedEvents [commentEventC10, issueEventC10, prEventC10] =
      [("r#5", { issue := none, pr := none, comments := [commentEventC10] })] := by
  decide

/-! ## C5: duplicate keys of the same kind in the linker -/

/-- First of two PullRequestEvents that share the key r#1. -/
def prEventC5a : GitHubEvent :=
  { id := "41", type := "PullRequestEvent", created_at := "2024-03-20T10:00:00Z",
    actor := { login := "alice" }, repo := { name := "r" },
    payload := { action := some "opened",
                 pull_request := some { number := 1, title := "first", html_url := "https://github.com/r/pull/1" } } }

/-- Second, later PullRequestEvent with the same key r#1. -/
def prEventC5b : GitHubEvent :=
  { id := "42", type := "PullRequestEvent", created_at := "2024-03-21T10:00:00Z",
    actor := { login := "bob" }, repo := { name := "r" },
    payload := { action := some "closed",
                 pull_request := some { number := 1, title := "second", html_url := "https://github.com/r/pull/1" } } }

/-- C5 counterexample: two PullRequestEvents with the same key — the map
returned by findRelatedEvents keeps the EARLIER one, not the later one as the
claim states. -/
theorem C5_counterexample :
    findRelatedEvents [prEventC5a, prEventC5b] =
      [("r#1", { issue := none, pr := some prEventC5a, comments := [] })]
      ∧ (prEventC5a == prEventC5b) = false := by
  constructor
  · decide
  · decide

/-- C5 (amended): a key maps to at most one issue and at most one pull
request (the RelatedEvents record has exactly one optional slot for each),
and when two records of the same kind carry the same key the EARLIER one
wins: the later duplicate is dropped by the has-guard of the first pass.
Stated for a feed of the two duplicates (bodies without closing references,
so the second pass leaves the map unchanged). -/
theorem C5_first_duplicate_wins (e1 e2 f1 f2 : GitHubEvent)
    (pr1 pr2 : PullRequest) (is1 is2 : Issue) (repo : String) (m n : Nat)
    (h1t : e1.type = "PullRequestEvent") (h1p : e1.payload.pull_request = some pr1)
    (h1n : pr1.number = m) (h1b : pr1.body = none) (h1r : e1.repo.name = repo)
    (h2t : e2.type = "PullRequestEvent") (h2p : e2.payload.pull_request = some pr2)
    (h2n : pr2.number = m) (h2b : pr2.body = none) (h2r : e2.repo.name = repo)
    (h3t : f1.type = "IssuesEvent") (h3p : f1.payload.issue = some is1)
    (h3n : is1.number = n) (h3r : f1.repo.name = repo)
    (h4t : f2.type = "IssuesEvent") (h4p : f2.payload.issue = some is2)
    (h4n : is2.number = n) (h4r : f2.repo.name = repo)
    (hm : m ≠ 0) (hn : n ≠ 0) :
    findRelatedEvents [e1, e2] =
      [(repo ++ "#" ++ Nat.repr m, { issue := none, pr := some e1, comments := [] })]
    ∧ findRelatedEvents [f1, f2] =
      [(repo ++ "#" ++ Nat.repr n, { issue := some f1, pr := none, comments := [] })] := by
  constructor
  · simp [findRelatedEvents, firstPassStep, secondPassStep, rhas, rset, rget,
      h1t, h1p, h1n, h1b, h1r, h2t, h2p, h2n, h2b, h2r, hm]
  · simp [findRelatedEvents, firstPassStep, secondPassStep, rhas, rset, rget,
      h3t, h3p, h3n, h3r, h4t, h4p, h4n, h4r, hn]

/-- Witness for C5_first_duplicate_wins at concrete duplicate events. -/
theorem C5_first_duplicate_wins_witness :
    findRelatedEvents [prEventC5a, prEventC5b] =
      [("r" ++ "#" ++ Nat.repr 1, { issue := none, pr := some prEventC5a, comments := [] })]
    ∧ findRelatedEvents [issueEventC10, issueEventC10] =
      [("r" ++ "#" ++ Nat.repr 5, { issue := some issueEventC10, pr := none, comments := [] })] :=
  C5_first_duplicate_wins prEventC5a prEventC5b issueEventC10 issueEventC10
    { number := 1, title := "first", html_url := "https://github.com/r/pull/1" }
    { number := 1, title := "second", html_url := "https://github.com/r/pull/1" }
    { number := 5, title := "Bug", html_url := "https://github.com/r/issues/5" }
    { number := 5, title := "Bug", html_url := "https://github.com/r/issues/5" }
    "r" 1 5 rfl rfl rfl rfl rfl rfl rfl rfl rfl rfl rfl rfl rfl rfl rfl rfl rfl rfl
    (by decide) (by decide)

/-! ## C2: linking a pull request to the issue it closes -/

/-- An IssueCommentEvent on r#7 that reaches the feed before the IssuesEvent. -/
def commentEventC2 : GitHubEvent :=
  { id := "c7", type := "IssueCommentEvent", created_at := "2024-03-20T09:00:00Z",
    actor := { login := "alice" }, repo := { name := "r" },
    payload := { issue := some { number := 7, title := "Bug", html_url := "https://github.com/r/issues/7" },
                 comment := some { html_url := "https://github.com/r/issues/7#issuecomment-1" } } }

/-- The tracked issue r#7. -/
def issueEventC2 : GitHubEvent :=
  { id := "i7", type := "IssuesEvent", created_at := "2024-03-20T10:00:00Z",
    actor := { login := "alice" }, repo := { name := "r" },
    payload := { action := some "opened",
                 issue := some { number := 7, title := "Bug", html_url := "https://github.com/r/issues/7" } } }

/-- The pull request r#9 whose body says "Fixes #7". -/
def prEventC2 : GitHubEvent :=
  { id := "p9", type := "PullRequestEvent", created_at := "2024-03-20T11:00:00Z",
    actor := { login := "alice" }, repo := { name := "r" },
    payload := { action := some "opened",
                 pull_request := some { number := 9, title := "Fix bug", html_url := "https://github.com/r/pull/9",
                                        body := some "Fixes #7" } } }

/-- C2 counterexample: the event list [comment on #7, issue #7, PR #9 whose
body contains "Fixes #7"] contains a qualifying PullRequestEvent and a
separate IssuesEvent numbered 7 in the same repository, yet the returned
entry for key r#7 has its issue field ABSENT: the comment created the entry
first, so the first pass dropped the IssuesEvent. -/
theorem C2_counterexample :
    rget (findRelatedEvents [commentEventC2, issueEventC2, prEventC2]) "r#7" =
      some { issue := none, pr := some prEventC2, comments := [commentEventC2] } := by
  decide

/-- C2 (amended): restricted to a feed consisting of the issue, its comments,
the pull request and its comments — with no earlier event occupying either
key — the linker merges the pull request into the issue-keyed entry: the
entry for repo#n carries both the issue and the pull request, the two
entries' comment lists are concatenated, and the pull-request-only key
repo#k is absent from the returned map. -/
theorem C2_closing_reference_merges (ei ci ep cp : GitHubEvent)
    (iss issC : Issue) (pr prC : PullRequest)
    (repo b : String) (n k : Nat) (mt : List Char)
    (hit : ei.type = "IssuesEvent") (hip : ei.payload.issue = some iss)
    (hin : iss.number = n) (hir : ei.repo.name = repo)
    (hct : ci.type = "IssueCommentEvent") (hcp : ci.payload.issue = some issC)
    (hcn : issC.number = n) (hcr : ci.repo.name = repo)
    (hpt : ep.type = "PullRequestEvent") (hpp : ep.payload.pull_request = some pr)
    (hpn : pr.number = k) (hpr : ep.repo.name = repo)
    (hpb : pr.body = some b) (hbne : b ≠ "")
    (hscan : scanClosing b.data = [mt]) (hdig : firstDigitRun mt = (Nat.repr n).data)
    (hqt : cp.type = "PullRequestReviewCommentEvent") (hqi : cp.payload.issue = none)
    (hqp : cp.payload.pull_request = some prC) (hqn : prC.number = k)
    (hqr : cp.repo.name = repo)
    (hn : n ≠ 0) (hk : k ≠ 0)
    (hkeys : (repo ++ "#" ++ Nat.repr n) ≠ (repo ++ "#" ++ Nat.repr k)) :
    findRelatedEvents [ei, ci, ep, cp] =
      [(repo ++ "#" ++ Nat.repr n,
        { issue := some ei, pr := some ep, comments := [ci, cp] })] := by
  have hd : (Nat.repr n).data ≠ [] := repr_data_ne_nil n
  simp [findRelatedEvents, firstPassStep, secondPassStep, rhas, rset, rget, rdelete,
    hit, hip, hin, hir, hct, hcp, hcn, hcr, hpt, hpp, hpn, hpr, hpb, hbne,
    hscan, hdig, hqt, hqi, hqp, hqn, hqr, hn, hk, hkeys, Ne.symm hkeys, hd,
    List.isEmpty_iff]

/-- A review comment on pull request r#9, used by the C2 witness. -/
def prCommentEventC2 : GitHubEvent :=
  { id := "rc9", type := "PullRequestReviewCommentEvent", created_at := "2024-03-20T12:00:00Z",
    actor := { login := "bob" }, repo := { name := "r" },
    payload := { pull_request := some { number := 9, title := "Fix bug", html_url := "https://github.com/r/pull/9",
                                        body := some "Fixes #7" },
                 comment := some { html_url := "https://github.com/r/pull/9#discussion-1" } } }

/-- Witness for C2_closing_reference_merges on the concrete feed
[issue #7, comment on #7, PR #9 "Fixes #7", review comment on #9]. -/
theorem C2_closing_reference_merges_witness :
    findRelatedEvents [issueEventC2, commentEventC2, prEventC2, prCommentEventC2] =
      [("r" ++ "#" ++ Nat.repr 7,
        { issue := some issueEventC2, pr := some prEventC2,
          comments := [commentEventC2, prCommentEventC2] })] :=
  C2_closing_reference_merges issueEventC2 commentEventC2 prEventC2 prCommentEventC2
    { number := 7, title := "Bug", html_url := "https://github.com/r/issues/7" }
    { number := 7, title := "Bug", html_url := "https://github.com/r/issues/7" }
    { number := 9, title := "Fix bug", html_url := "https://github.com/r/pull/9", body := some "Fixes #7" }
    { number := 9, title := "Fix bug", html_url := "https://github.com/r/pull/9", body := some "Fixes #7" }
    "r" "Fixes #7" 7 9 "Fixes #7".data
    rfl rfl rfl rfl rfl rfl rfl rfl rfl rfl rfl rfl rfl (by decide)
    (by decide) (by decide) rfl rfl rfl rfl rfl
    (by decide) (by decide) (by decide)

/-! ## C3: truncateMiddle (the report helpers in src/app/utils/event-helpers.ts) -/

/-- Literal-prefix test on character lists. -/
def hasPrefixSeq : List Char → List Char → Bool
  | [], _ => true
  | _ :: _, [] => false
  | p :: ps, c :: cs => p == c && hasPrefixSeq ps cs

/-- Substring occurrence test on character lists. -/
def hasSubSeq (pat : List Char) : List Char → Bool
  | [] => hasPrefixSeq pat []
  | c :: rest => hasPrefixSeq pat (c :: rest) || hasSubSeq pat rest

theorem hasPrefixSeq_append (pat b : List Char) : hasPrefixSeq pat (pat ++ b) = true := by
  induction pat with
  | nil => rfl
  | cons p ps ih => simp [hasPrefixSeq, ih]

theorem hasSubSeq_of_hasPrefixSeq (pat l : List Char) (h : hasPrefixSeq pat l = true) :
    hasSubSeq pat l = true := by
  cases l with
  | nil => simpa [hasSubSeq] using h
  | cons c rest => simp [hasSubSeq, h]

theorem hasSubSeq_append_left (pat a l : List Char) (h : hasSubSeq pat l = true) :
    hasSubSeq pat (a ++ l) = true := by
  induction a with
  | nil => simpa using h
  | cons c cs ih => simp [hasSubSeq, ih]

/-- Normalization of a JavaScript String.slice index: negative indices count
from the end of the string, and indices are clamped into [0, len].  Note that
-0 is not negative, which is the source of the behaviour at maxLength 3 and 4
below. -/
def jsIndexClamp (len : Nat) (i : Int) : Nat :=
  if i < 0 then (max ((len : Int) + i) 0).toNat else min i.toNat len

/-- text.slice(start, stop) on the character list of a string. -/
def jsSliceList (l : List Char) (start stop : Int) : List Char :=
  (l.take (jsIndexClamp l.length stop)).drop (jsIndexClamp l.length start)

/-- text.slice(start): the one-argument form runs to the end of the string. -/
def jsSliceFromList (l : List Char) (start : Int) : List Char :=
  jsSliceList l start (l.length : Int)

/-- truncateMiddle (report helpers): (maxLength - 3) / 2 is floored division
(Math.floor on the float quotient equals Int.fdiv for integral operands). -/
def truncateMiddle (text : String) (maxLength : Nat := 100) : String :=
  if text.length ≤ maxLength then text
  else
    let halfLength : Int := Int.fdiv ((maxLength : Int) - 3) 2
    String.mk (jsSliceList text.data 0 halfLength) ++ "..." ++
      String.mk (jsSliceFromList text.data (-halfLength))

/-- C3 counterexample: at maxLength 3 the half length is 0 and slice(-0)
returns the whole string, so the result "...abcd" is LONGER than maxLength,
refuting the claimed bound for every maxLength. -/
theorem C3_counterexample :
    truncateMiddle "abcd" 3 = "...abcd" ∧ 3 < (truncateMiddle "abcd" 3).length := by
  constructor
  · decide
  · decide

example (l : List Char) : (String.mk l).length = l.length := rfl
example (a b : String) : (a ++ b).length = a.length + b.length := by simp [String.length_append]

/-- C3 (amended): for every maxLength ≥ 5 (so that the half length is at
least 1), truncation of a string longer than maxLength yields exactly
prefix ++ "..." ++ suffix with prefix and suffix the first and last
floor((maxLength-3)/2) characters of s, the result length is bounded by
maxLength and contains "..."; a string within the budget is returned
unchanged.  For maxLength 3 and 4 the code instead returns "..." ++ s
(see C3_counterexample). -/
theorem C3_truncate_middle (s : String) (maxLength : Nat) (h5 : 5 ≤ maxLength) :
    (s.length ≤ maxLength → truncateMiddle s maxLength = s) ∧
    (maxLength < s.length →
      truncateMiddle s maxLength =
        String.mk (s.data.take ((maxLength - 3) / 2)) ++ "..." ++
          String.mk (s.data.drop (s.data.length - (maxLength - 3) / 2))
      ∧ (truncateMiddle s maxLength).length ≤ maxLength
      ∧ hasSubSeq "...".data (truncateMiddle s maxLength).data = true) := by
  constructor
  · intro h
    simp [truncateMiddle, h]
  · intro h
    have hnle : ¬ s.length ≤ maxLength := by omega
    set n2 : Nat := (maxLength - 3) / 2 with hH
    have hdiv : 2 * n2 ≤ maxLength - 3 := by
      have := Nat.div_mul_le_self (maxLength - 3) 2
      omega
    have h1 : 1 ≤ n2 := by
      have : 2 / 2 ≤ (maxLength - 3) / 2 := Nat.div_le_div_right (by omega)
      simpa [hH] using this
    have hlen : s.length = s.data.length := rfl
    have hhlen : n2 ≤ s.data.length := by omega
    have hfd : Int.fdiv ((maxLength : Int) - 3) 2 = (n2 : Int) := by
      have h3 : (maxLength : Int) - 3 = ((maxLength - 3 : Nat) : Int) := by omega
      rw [h3, Int.fdiv_eq_ediv _ (by decide)]
      omega
    have hstop : jsIndexClamp s.data.length ((n2 : Nat) : Int) = n2 := by
      rw [jsIndexClamp, if_neg (by omega)]
      omega
    have hA : jsSliceList s.data 0 ((n2 : Nat) : Int) = s.data.take n2 := by
      rw [jsSliceList, hstop, jsIndexClamp, if_neg (by omega)]
      simp
    have hnegstart : jsIndexClamp s.data.length (-((n2 : Nat) : Int)) =
        s.data.length - n2 := by
      rw [jsIndexClamp, if_pos (by omega)]
      omega
    have hendstop : jsIndexClamp s.data.length ((s.data.length : Nat) : Int) =
        s.data.length := by
      rw [jsIndexClamp, if_neg (by omega)]
      omega
    have hB : jsSliceFromList s.data (-((n2 : Nat) : Int)) =
        s.data.drop (s.data.length - n2) := by
      rw [jsSliceFromList, jsSliceList, hnegstart, hendstop, List.take_length]
    have heq : truncateMiddle s maxLength =
        String.mk (s.data.take n2) ++ "..." ++
          String.mk (s.data.drop (s.data.length - n2)) := by
      rw [truncateMiddle, if_neg hnle, hfd]
      simp only [hA, hB]
    refine ⟨heq, ?_, ?_⟩
    · rw [heq]
      have hL : (String.mk (s.data.take n2) ++ "..." ++
          String.mk (s.data.drop (s.data.length - n2))).length =
          (s.data.take n2).length + 3 + (s.data.drop (s.data.length - n2)).length := by
        simp [String.length_append]
        rfl
      rw [hL, List.length_take, List.length_drop]
      omega
    · rw [heq]
      have hdata : (String.mk (s.data.take n2) ++ "..." ++
          String.mk (s.data.drop (s.data.length - n2))).data =
          s.data.take n2 ++ ("...".data ++ s.data.drop (s.data.length - n2)) := by
        simp
      rw [hdata]
      exact hasSubSeq_append_left _ _ _
        (hasSubSeq_of_hasPrefixSeq _ _ (hasPrefixSeq_append _ _))

/-- Witness for C3_truncate_middle at s = "abcdefgh", maxLength = 5. -/
theorem C3_truncate_middle_witness :
    truncateMiddle "abcdefgh" 5 =
      String.mk ("abcdefgh".data.take ((5 - 3) / 2)) ++ "..." ++
        String.mk ("abcdefgh".data.drop ("abcdefgh".data.length - (5 - 3) / 2)) :=
  ((C3_truncate_middle "abcdefgh" 5 (by decide)).2 (by decide)).1

/-! ## Report builder (prepareReportData, report helpers in
src/app/utils/event-helpers.ts) -/

/-- One item of a report section: { title, url }. -/
structure ReportEntry where
  title : String
  url : String
deriving DecidableEq

/-- One section of a report category: { title, items }. -/
structure ReportSection where
  title : String
  items : List ReportEntry
deriving DecidableEq

/-- ReportItem (src/app/types/github): { title, sections }. -/
structure ReportItem where
  title : String
  sections : List ReportSection
deriving DecidableEq

/-- Apply f to the first element satisfying p (Array.prototype.find followed
by in-place mutation); none when no element matches. -/
def updateFirstWhere (p : α → Bool) (f : α → α) : List α → Option (List α)
  | [] => none
  | x :: xs =>
    if p x then some (f x :: xs)
    else (updateFirstWhere p f xs).map (fun ys => x :: ys)

/-- The item push of addToSection: items.find(item => item.url === itemUrl)
guards the push, so deduplication is by url alone, first occurrence wins. -/
def addEntryToItems (items : List ReportEntry) (itemTitle itemUrl : String) : List ReportEntry :=
  if items.any (fun it => it.url == itemUrl) then items
  else items ++ [{ title := itemTitle, url := itemUrl }]

/-- The section lookup-or-create step of addToSection. -/
def addToSectionInSections (sections : List ReportSection) (sectionTitle itemTitle itemUrl : String) :
    List ReportSection :=
  match updateFirstWhere (fun s => s.title == sectionTitle)
      (fun s => { s with items := addEntryToItems s.items itemTitle itemUrl }) sections with
  | some updated => updated
  | none => sections ++ [{ title := sectionTitle, items := addEntryToItems [] itemTitle itemUrl }]

/-- addToSection (report helpers): find or create the category, find or
create the section, then push the item unless an item with the same url is
already present. -/
def addToSection (reportData : List ReportItem) (categoryTitle sectionTitle itemTitle itemUrl : String) :
    List ReportItem :=
  match updateFirstWhere (fun c => c.title == categoryTitle)
      (fun c => { c with sections := addToSectionInSections c.sections sectionTitle itemTitle itemUrl })
      reportData with
  | some updated => updated
  | none =>
    reportData ++ [{ title := categoryTitle,
                     sections := addToSectionInSections [] sectionTitle itemTitle itemUrl }]

/-- The per-event switch of prepareReportData.  JS equality against the
optional action field: undefined === "opened" is false. -/
def processReportEvent (reportData : List ReportItem) (event : GitHubEvent) : List ReportItem :=
  if event.type == "PullRequestEvent" then
    match event.payload.pull_request with
    | none => reportData
    | some pr =>
      let title := pr.title
      let url := pr.html_url
      let isMerged := pr.merged == some true
      let mergedBy := pr.merged_by.map User.login
      let creator := pr.user.map User.login
      if event.payload.action == some "opened" then
        addToSection reportData "Pull Requests" "Opened" title url
      else if event.payload.action == some "closed" && isMerged && mergedBy == creator then
        addToSection reportData "Pull Requests" "Merged" title url
      else if event.payload.action == some "closed" && isMerged then
        addToSection reportData "Pull Requests" "Merged" title url
      else reportData
  else if event.type == "PullRequestReviewEvent" then
    match event.payload.pull_request, event.payload.review with
    | some pr, some review =>
      if review.state == "approved" then
        addToSection reportData "Pull Requests" "Reviewed" pr.title pr.html_url
      else reportData
    | _, _ => reportData
  else if event.type == "IssuesEvent" then
    match event.payload.issue with
    | none => reportData
    | some issue =>
      if event.payload.action == some "opened" then
        addToSection reportData "Issues" "Opened" issue.title issue.html_url
      else if event.payload.action == some "closed" then
        addToSection reportData "Issues" "Closed" issue.title issue.html_url
      else reportData
  else if event.type == "IssueCommentEvent" then
    match event.payload.issue with
    | none => reportData
    | some issue =>
      if issue.pull_request.isSome then reportData
      else addToSection reportData "Issues" "Commented" issue.title issue.html_url
  else reportData

/-- Stable insertion of a later element: it goes after every element it is
not strictly before, which reproduces the stable comparator sort of modern
Array.prototype.sort. -/
def insertSorted (lt : α → α → Bool) (a : α) : List α → List α
  | [] => [a]
  | b :: bs => if lt a b then a :: b :: bs else b :: insertSorted lt a bs

/-- Stable sort by a strictly-before test derived from a JS comparator
(lt a b means cmp(a,b) < 0). -/
def stableSort (lt : α → α → Bool) (l : List α) : List α :=
  l.foldl (fun acc a => insertSorted lt a acc) []

/-- sectionOrder lookup with the || 99 default for unknown titles. -/
def sectionOrderOf (t : String) : Nat :=
  if t == "Opened" then 1
  else if t == "Reviewed" then 2
  else if t == "Merged" then 3
  else if t == "Commented" then 4
  else if t == "Closed" then 5
  else 99

def sectionLt (a b : ReportSection) : Bool :=
  sectionOrderOf a.title < sectionOrderOf b.title

/-- Item comparator a.url.localeCompare(b.url), modelled as code-point
comparison of the urls. -/
def reportEntryLt (a b : ReportEntry) : Bool :=
  a.url < b.url

/-- categoryOrder.indexOf, with -1 for titles outside the fixed list. -/
def categoryIndexOf (t : String) : Int :=
  if t == "Pull Requests" then 0
  else if t == "Issues" then 1
  else -1

/-- The category comparator: orderA === -1 sorts a after everything,
orderB === -1 sorts b after a, otherwise by index. -/
def categoryLt (a b : ReportItem) : Bool :=
  let orderA := categoryIndexOf a.title
  let orderB := categoryIndexOf b.title
  if orderA == -1 then false
  else if orderB == -1 then true
  else orderA < orderB

/-- The final sorting passes of prepareReportData: sections by the fixed
priority, items by url, categories by the fixed category order. -/
def sortReportData (reportData : List ReportItem) : List ReportItem :=
  stableSort categoryLt
    (reportData.map (fun c =>
      { c with sections :=
          (stableSort sectionLt c.sections).map (fun s =>
            { s with items := stableSort reportEntryLt s.items }) }))

/-- prepareReportData (report helpers in src/app/utils/event-helpers.ts). -/
def prepareReportData (events : List GitHubEvent) : List ReportItem :=
  sortReportData (events.foldl processReportEvent [])

/-- Does the report hold, in the section of the given category, an item with
the given url? -/
def hasReportItem (reportData : List ReportItem) (categoryTitle sectionTitle url : String) : Bool :=
  reportData.any (fun c => c.title == categoryTitle &&
    c.sections.any (fun s => s.title == sectionTitle &&
      s.items.any (fun it => it.url == url)))

/-! ## Membership invariants of the report builder -/

theorem any_addEntryToItems_self (items : List ReportEntry) (t u : String) :
    (addEntryToItems items t u).any (fun it => it.url == u) = true := by
  rw [addEntryToItems]
  split
  · assumption
  · simp [List.any_append]

theorem any_addEntryToItems_mono (items : List ReportEntry) (t u u' : String)
    (h : items.any (fun it => it.url == u') = true) :
    (addEntryToItems items t u).any (fun it => it.url == u') = true := by
  rw [addEntryToItems]
  split
  · exact h
  · simp [List.any_append, h]

theorem updateFirstWhere_any_intro {p : α → Bool} {f : α → α} {l l' : List α}
    (h : updateFirstWhere p f l = some l') (q : α → Bool)
    (hq : ∀ x, p x = true → q (f x) = true) : l'.any q = true := by
  induction l generalizing l' with
  | nil => simp [updateFirstWhere] at h
  | cons x xs ih =>
    rw [updateFirstWhere] at h
    split at h
    · rename_i hp
      cases h
      simp [hq x hp]
    · cases hys : updateFirstWhere p f xs with
      | none => rw [hys] at h; simp at h
      | some ys =>
        rw [hys] at h
        simp at h
        subst h
        simp [ih hys]

theorem updateFirstWhere_any_mono {p : α → Bool} {f : α → α} {l l' : List α}
    (h : updateFirstWhere p f l = some l') (q : α → Bool)
    (hq : ∀ x, q x = true → q (f x) = true) (hl : l.any q = true) : l'.any q = true := by
  induction l generalizing l' with
  | nil => simp [updateFirstWhere] at h
  | cons x xs ih =>
    rw [updateFirstWhere] at h
    split at h
    · cases h
      simp at hl ⊢
      rcases hl with hx | hxs
      · exact Or.inl (hq x hx)
      · exact Or.inr hxs
    · cases hys : updateFirstWhere p f xs with
      | none => rw [hys] at h; simp at h
      | some ys =>
        rw [hys] at h
        simp at h
        subst h
        simp at hl ⊢
        rcases hl with hx | hxs
        · exact Or.inl hx
        · exact Or.inr (by simpa using ih hys (by simpa using hxs))

theorem any_addToSectionInSections_self (sections : List ReportSection) (s t u : String) :
    (addToSectionInSections sections s t u).any
      (fun sec => sec.title == s && sec.items.any (fun it => it.url == u)) = true := by
  rw [addToSectionInSections]
  split
  · rename_i updated hupd
    exact updateFirstWhere_any_intro hupd _ (fun x hx => by
      simp at hx ⊢
      exact ⟨hx, by simpa using any_addEntryToItems_self x.items t u⟩)
  · simp [List.any_append]
    exact Or.inr (by simpa using any_addEntryToItems_self [] t u)

theorem any_addToSectionInSections_mono (sections : List ReportSection) (s t u s' u' : String)
    (h : sections.any (fun sec => sec.title == s' && sec.items.any (fun it => it.url == u')) = true) :
    (addToSectionInSections sections s t u).any
      (fun sec => sec.title == s' && sec.items.any (fun it => it.url == u')) = true := by
  rw [addToSectionInSections]
  split
  · rename_i updated hupd
    refine updateFirstWhere_any_mono hupd _ (fun x hx => ?_) h
    simp at hx ⊢
    exact ⟨hx.1, by simpa using any_addEntryToItems_mono x.items t u u' (by simpa using hx.2)⟩
  · simp [List.any_append, h]

theorem hasReportItem_addToSection_self (rd : List ReportItem) (c s t u : String) :
    hasReportItem (addToSection rd c s t u) c s u = true := by
  rw [hasReportItem, addToSection]
  split
  · rename_i updated hupd
    exact updateFirstWhere_any_intro hupd _ (fun x hx => by
      simp at hx ⊢
      exact ⟨hx, by simpa using any_addToSectionInSections_self x.sections s t u⟩)
  · simp [List.any_append]
    exact Or.inr (by simpa using any_addToSectionInSections_self [] s t u)

theorem hasReportItem_addToSection_mono {rd : List ReportItem} {c' s' u' : String}
    (c s t u : String) (h : hasReportItem rd c' s' u' = true) :
    hasReportItem (addToSection rd c s t u) c' s' u' = true := by
  rw [hasReportItem, addToSection]
  rw [hasReportItem] at h
  split
  · rename_i updated hupd
    refine updateFirstWhere_any_mono hupd _ (fun x hx => ?_) h
    simp at hx ⊢
    exact ⟨hx.1, by simpa using any_addToSectionInSections_mono x.sections s t u s' u' (by simpa using hx.2)⟩
  · simp [List.any_append, h]

theorem hasReportItem_processReportEvent_mono {rd : List ReportItem} {c s u : String}
    (e : GitHubEvent) (h : hasReportItem rd c s u = true) :
    hasReportItem (processReportEvent rd e) c s u = true := by
  rw [processReportEvent]
  repeat' first
    | exact h
    | exact hasReportItem_addToSection_mono _ _ _ _ h
    | split
    | dsimp only

theorem hasReportItem_foldl_mono {c s u : String} (evs : List GitHubEvent)
    (rd : List ReportItem) (h : hasReportItem rd c s u = true) :
    hasReportItem (evs.foldl processReportEvent rd) c s u = true := by
  induction evs generalizing rd with
  | nil => exact h
  | cons e rest ih =>
    exact ih _ (hasReportItem_processReportEvent_mono e h)

theorem hasReportItem_foldl_intro {c s u : String} {e : GitHubEvent}
    (evs : List GitHubEvent) (rd : List ReportItem) (he : e ∈ evs)
    (hstep : ∀ rd', hasReportItem (processReportEvent rd' e) c s u = true) :
    hasReportItem (evs.foldl processReportEvent rd) c s u = true := by
  induction evs generalizing rd with
  | nil => cases he
  | cons x rest ih =>
    rcases List.mem_cons.mp he with hx | hrest
    · subst hx
      exact hasReportItem_foldl_mono rest _ (hstep rd)
    · exact ih _ hrest

theorem mem_insertSorted {lt : α → α → Bool} {a x : α} {l : List α} :
    x ∈ insertSorted lt a l ↔ x = a ∨ x ∈ l := by
  induction l with
  | nil => simp [insertSorted]
  | cons b bs ih =>
    rw [insertSorted]
    split
    · simp
    · simp [ih]
      tauto

theorem mem_stableSort {lt : α → α → Bool} {x : α} {l : List α} :
    x ∈ stableSort lt l ↔ x ∈ l := by
  rw [stableSort]
  suffices h : ∀ acc : List α, x ∈ l.foldl (fun acc a => insertSorted lt a acc) acc ↔ x ∈ acc ∨ x ∈ l by
    simpa using h []
  induction l with
  | nil => simp
  | cons b bs ih =>
    intro acc
    simp only [List.foldl_cons]
    rw [ih]
    rw [mem_insertSorted]
    simp
    tauto

theorem any_stableSort {lt : α → α → Bool} {q : α → Bool} {l : List α} :
    (stableSort lt l).any q = l.any q := by
  cases hl : l.any q with
  | true =>
    simp only [List.any_eq_true] at hl ⊢
    rcases hl with ⟨x, hx, hq⟩
    exact ⟨x, mem_stableSort.mpr hx, hq⟩
  | false =>
    simp only [List.any_eq_false] at hl ⊢
    intro x hx
    exact hl x (mem_stableSort.mp hx)

theorem hasReportItem_sortReportData {rd : List ReportItem} {c s u : String} :
    hasReportItem (sortReportData rd) c s u = hasReportItem rd c s u := by
  rw [hasReportItem, hasReportItem, sortReportData, any_stableSort, List.any_map]
  congr 1
  funext cat
  simp only [Function.comp]
  congr 1
  rw [List.any_map, any_stableSort]
  congr 1
  funext sec
  simp only [Function.comp]
  congr 1
  rw [any_stableSort]

/-- C1 (amended): in the summary built by prepareReportData, a
PullRequestEvent with action "opened" contributes its pull request to the
"Opened" section and one with action "closed" and merged == true to the
"Merged" section of the "Pull Requests" category; a PullRequestReviewEvent
whose review state is "approved" contributes to "Reviewed".  A
PullRequestEvent with action "closed" and merged != true contributes to NO
section at all (the event-helpers variant has no "Closed" branch for pull
requests): processing it leaves the report unchanged. -/
theorem C1_report_section_assignment (events : List GitHubEvent) (e : GitHubEvent) (he : e ∈ events) :
    (∀ pr, e.type = "PullRequestEvent" → e.payload.pull_request = some pr →
      ((e.payload.action = some "opened" →
          hasReportItem (prepareReportData events) "Pull Requests" "Opened" pr.html_url = true)
       ∧ (e.payload.action = some "closed" → pr.merged = some true →
          hasReportItem (prepareReportData events) "Pull Requests" "Merged" pr.html_url = true)
       ∧ (e.payload.action = some "closed" → pr.merged ≠ some true →
          ∀ rd, processReportEvent rd e = rd)))
    ∧ (∀ pr review, e.type = "PullRequestReviewEvent" → e.payload.pull_request = some pr →
        e.payload.review = some review → review.state = "approved" →
        hasReportItem (prepareReportData events) "Pull Requests" "Reviewed" pr.html_url = true) := by
  constructor
  · intro pr ht hp
    refine ⟨?_, ?_, ?_⟩
    · intro ha
      rw [prepareReportData, hasReportItem_sortReportData]
      refine hasReportItem_foldl_intro events [] he (fun rd' => ?_)
      rw [processReportEvent]
      simp [ht, hp, ha]
      exact hasReportItem_addToSection_self rd' _ _ pr.title _
    · intro ha hm
      rw [prepareReportData, hasReportItem_sortReportData]
      refine hasReportItem_foldl_intro events [] he (fun rd' => ?_)
      rw [processReportEvent]
      simp [ht, hp, ha, hm]
      exact hasReportItem_addToSection_self rd' _ _ pr.title _
    · intro ha hm rd
      rw [processReportEvent]
      simp [ht, hp, ha, hm]
  · intro pr review ht hp hr hs
    rw [prepareReportData, hasReportItem_sortReportData]
    refine hasReportItem_foldl_intro events [] he (fun rd' => ?_)
    rw [processReportEvent]
    simp [ht, hp, hr, hs]
    exact hasReportItem_addToSection_self rd' _ _ pr.title _

/-- A closed pull request that was not merged. -/
def closedUnmergedPREventC1 : GitHubEvent :=
  { id := "z9", type := "PullRequestEvent", created_at := "2024-03-20T10:00:00Z",
    actor := { login := "alice" }, repo := { name := "r" },
    payload := { action := some "closed",
                 pull_request := some { number := 9, title := "Abandoned", html_url := "https://github.com/r/pull/9",
                                        merged := some false, user := some { login := "alice" } } } }

/-- C1 counterexample: summarizing a feed holding only a closed, unmerged
PullRequestEvent yields an EMPTY report — the event is assigned to no
section, in particular not to "Closed" as the claim states. -/
theorem C1_counterexample :
    prepareReportData [closedUnmergedPREventC1] = []
    ∧ hasReportItem (prepareReportData [closedUnmergedPREventC1]) "Pull Requests" "Closed"
        "https://github.com/r/pull/9" = false := by
  constructor
  · decide
  · decide

/-- An opened pull request used by the C1 witness. -/
def openedPREventC1 : GitHubEvent :=
  { id := "w1", type := "PullRequestEvent", created_at := "2024-03-20T10:00:00Z",
    actor := { login := "alice" }, repo := { name := "r" },
    payload := { action := some "opened",
                 pull_request := some { number := 1, title := "Add X", html_url := "https://github.com/r/pull/1" } } }

/-- Witness for C1_report_section_assignment: the opened pull request lands
in the "Opened" section. -/
theorem C1_report_section_assignment_witness :
    hasReportItem (prepareReportData [openedPREventC1]) "Pull Requests" "Opened"
      "https://github.com/r/pull/1" = true :=
  ((C1_report_section_assignment [openedPREventC1] openedPREventC1 (by simp)).1
    { number := 1, title := "Add X", html_url := "https://github.com/r/pull/1" } rfl rfl).1 rfl

/-! ## C7: deduplication inside a report bucket -/

/-- First opened pull request event, title "a", url u. -/
def openedPREventC7a : GitHubEvent :=
  { id := "d1", type := "PullRequestEvent", created_at := "2024-03-20T10:00:00Z",
    actor := { login := "alice" }, repo := { name := "r" },
    payload := { action := some "opened",
                 pull_request := some { number := 1, title := "a", html_url := "https://github.com/r/pull/1" } } }

/-- Second opened pull request event with a DIFFERENT title but the same url. -/
def openedPREventC7b : GitHubEvent :=
  { id := "d2", type := "PullRequestEvent", created_at := "2024-03-20T11:00:00Z",
    actor := { login := "alice" }, repo := { name := "r" },
    payload := { action := some "opened",
                 pull_request := some { number := 1, title := "b", html_url := "https://github.com/r/pull/1" } } }

/-- C7 counterexample: two records with DIFFERENT titles but the same url in
the same bucket do NOT both appear — addToSection deduplicates by url alone,
so only the first item (title "a") survives. -/
theorem C7_counterexample :
    prepareReportData [openedPREventC7a, openedPREventC7b] =
      [{ title := "Pull Requests",
         sections := [{ title := "Opened",
                        items := [{ title := "a", url := "https://github.com/r/pull/1" }] }] }] := by
  decide

/-- C7 (amended): within one bucket the summarizer deduplicates by URL alone,
first occurrence wins: two records with the same url — whether their titles
agree (the identical (title,url) case of the claim) or differ — produce
exactly one item, carrying the first record's title. -/
theorem C7_dedup_by_url_first_wins (e1 e2 : GitHubEvent) (pr1 pr2 : PullRequest)
    (h1t : e1.type = "PullRequestEvent") (h1p : e1.payload.pull_request = some pr1)
    (h1a : e1.payload.action = some "opened")
    (h2t : e2.type = "PullRequestEvent") (h2p : e2.payload.pull_request = some pr2)
    (h2a : e2.payload.action = some "opened")
    (hurl : pr2.html_url = pr1.html_url) :
    prepareReportData [e1, e2] =
      [{ title := "Pull Requests",
         sections := [{ title := "Opened",
                        items := [{ title := pr1.title, url := pr1.html_url }] }] }] := by
  simp [prepareReportData, processReportEvent, addToSection, addToSectionInSections,
    addEntryToItems, updateFirstWhere, sortReportData, stableSort, insertSorted,
    h1t, h1p, h1a, h2t, h2p, h2a, hurl]

/-- Witness for C7_dedup_by_url_first_wins on two identical-(title,url)
records: exactly one item results. -/
theorem C7_dedup_by_url_first_wins_witness :
    prepareReportData [openedPREventC7a, openedPREventC7a] =
      [{ title := "Pull Requests",
         sections := [{ title := "Opened",
                        items := [{ title := "a", url := "https://github.com/r/pull/1" }] }] }] :=
  C7_dedup_by_url_first_wins openedPREventC7a openedPREventC7a
    { number := 1, title := "a", html_url := "https://github.com/r/pull/1" }
    { number := 1, title := "a", html_url := "https://github.com/r/pull/1" }
    rfl rfl rfl rfl rfl rfl rfl

/-! ## C4: HTML export escaping (formatReportAsHtml) -/

/-- text.replace(/c/g, rep) for a single-character pattern. -/
def replaceCharList (c : Char) (rep : List Char) : List Char → List Char
  | [] => []
  | x :: xs => (if x == c then rep else [x]) ++ replaceCharList c rep xs

/-- The escapeHtml helper of formatReportAsHtml: five global replacement
passes, & first so that later passes do not double-escape. -/
def escapeHtmlList (l : List Char) : List Char :=
  replaceCharList '\'' "&#039;".data
    (replaceCharList '"' "&quot;".data
      (replaceCharList '>' "&gt;".data
        (replaceCharList '<' "&lt;".data
          (replaceCharList '&' "&amp;".data l))))

def escapeHtml (s : String) : String :=
  String.mk (escapeHtmlList s.data)

theorem not_mem_replaceCharList {a c : Char} {rep l : List Char}
    (hrep : a ∉ rep) (hl : a ∉ l ∨ a = c) :
    a ∉ replaceCharList c rep l := by
  induction l with
  | nil => simp [replaceCharList]
  | cons x xs ih =>
    rw [replaceCharList]
    simp only [List.mem_append]
    rintro (hx | hxs)
    · split at hx
      · exact hrep hx
      · rename_i hne
        simp at hx hne
        rcases hl with hnl | hac
        · exact hnl (by simp [hx])
        · exact hne (by rw [← hx, hac])
    · rcases hl with hnl | hac
      · exact ih (Or.inl (fun hm => hnl (List.mem_cons_of_mem _ hm))) hxs
      · exact ih (Or.inr hac) hxs

theorem lt_not_mem_escapeHtmlList (l : List Char) : '<' ∉ escapeHtmlList l := by
  rw [escapeHtmlList]
  refine not_mem_replaceCharList (by decide) (Or.inl ?_)
  refine not_mem_replaceCharList (by decide) (Or.inl ?_)
  refine not_mem_replaceCharList (by decide) (Or.inl ?_)
  exact not_mem_replaceCharList (by decide) (Or.inr rfl)

/-- The characters that may legitimately follow a literal < in the HTML
template of formatReportAsHtml. -/
def okAfterLt (d : Char) : Bool :=
  d == 'h' || d == '/' || d == 'u' || d == 'l' || d == 'a'

/-- Every occurrence of < is immediately followed by one of the template
characters (h, /, u, l, a); in particular the text does not end in <. -/
def safeLtChars : List Char → Bool
  | [] => true
  | [c] => c != '<'
  | c :: d :: rest => (c != '<' || okAfterLt d) && safeLtChars (d :: rest)

theorem safeLtChars_tail {c : Char} {l : List Char} (h : safeLtChars (c :: l) = true) :
    safeLtChars l = true := by
  cases l with
  | nil => rfl
  | cons d rest =>
    rw [safeLtChars] at h
    exact ((Bool.and_eq_true _ _).mp h).2

theorem safeLtChars_of_not_mem_lt {l : List Char} (h : '<' ∉ l) : safeLtChars l = true := by
  induction l with
  | nil => rfl
  | cons c cs ih =>
    have hc : c ≠ '<' := fun hx => h (by simp [hx])
    have hcs : '<' ∉ cs := fun hx => h (List.mem_cons_of_mem _ hx)
    cases cs with
    | nil => simpa [safeLtChars] using hc
    | cons d rest =>
      rw [safeLtChars]
      simp only [Bool.and_eq_true]
      exact ⟨by simp [hc], ih hcs⟩

theorem safeLtChars_append {a b : List Char} (ha : safeLtChars a = true)
    (hb : safeLtChars b = true) : safeLtChars (a ++ b) = true := by
  induction a with
  | nil => simpa using hb
  | cons c tl ih =>
    cases tl with
    | nil =>
      have hc : (c != '<') = true := by simpa [safeLtChars] using ha
      cases b with
      | nil => simpa [safeLtChars] using ha
      | cons d rest =>
        have : safeLtChars (c :: d :: rest) = true := by
          rw [safeLtChars]
          simp only [Bool.and_eq_true]
          exact ⟨by simp [hc], hb⟩
        simpa using this
    | cons d rest =>
      rw [safeLtChars] at ha
      rcases (Bool.and_eq_true _ _).mp ha with ⟨h1, h2⟩
      have := ih h2
      simp only [List.cons_append] at this ⊢
      rw [safeLtChars]
      simp only [Bool.and_eq_true]
      exact ⟨h1, by simpa using this⟩

/-- formatReportAsHtml (report helpers in src/app/utils/event-helpers.ts):
category alias, h3 headers, ul/li list with escaped url and escaped,
truncated title. -/
def formatReportAsHtml (reportData : List ReportItem) : String :=
  reportData.foldl (fun html category =>
    let categoryPrefix := if category.title == "Pull Requests" then "PRs" else category.title
    category.sections.foldl (fun html sec =>
      let html := html ++ "<h3>" ++ escapeHtml categoryPrefix ++ " - " ++
        escapeHtml sec.title ++ "</h3>\n<ul>\n"
      let html := sec.items.foldl (fun html item =>
        html ++ "  <li><a href=\"" ++ escapeHtml item.url ++ "\">" ++
          escapeHtml (truncateMiddle item.title) ++ "</a></li>\n") html
      html ++ "</ul>\n\n") html) ""

theorem safeLtChars_escapeHtml (s : String) : safeLtChars (escapeHtml s).data = true :=
  safeLtChars_of_not_mem_lt (lt_not_mem_escapeHtmlList s.data)

theorem safeLtChars_strAppend {a b : String} (ha : safeLtChars a.data = true)
    (hb : safeLtChars b.data = true) : safeLtChars (a ++ b).data = true := by
  rw [String.data_append]
  exact safeLtChars_append ha hb

theorem safeLtChars_items_fold (items : List ReportEntry) (html : String)
    (h : safeLtChars html.data = true) :
    safeLtChars ((items.foldl (fun html item =>
      html ++ "  <li><a href=\"" ++ escapeHtml item.url ++ "\">" ++
        escapeHtml (truncateMiddle item.title) ++ "</a></li>\n") html)).data = true := by
  induction items generalizing html with
  | nil => exact h
  | cons it rest ih =>
    refine ih _ ?_
    refine safeLtChars_strAppend (safeLtChars_strAppend (safeLtChars_strAppend
      (safeLtChars_strAppend (safeLtChars_strAppend h (by decide))
        (safeLtChars_escapeHtml _)) (by decide)) (safeLtChars_escapeHtml _)) (by decide)

theorem safeLtChars_sections_fold (sections : List ReportSection) (pfx html : String)
    (h : safeLtChars html.data = true) :
    safeLtChars ((sections.foldl (fun html s =>
      (s.items.foldl (fun html item =>
        html ++ "  <li><a href=\"" ++ escapeHtml item.url ++ "\">" ++
          escapeHtml (truncateMiddle item.title) ++ "</a></li>\n")
        (html ++ "<h3>" ++ escapeHtml pfx ++ " - " ++ escapeHtml s.title ++ "</h3>\n<ul>\n"))
        ++ "</ul>\n\n") html)).data = true := by
  induction sections generalizing html with
  | nil => exact h
  | cons s rest ih =>
    refine ih _ ?_
    refine safeLtChars_strAppend ?_ (by decide)
    refine safeLtChars_items_fold _ _ ?_
    refine safeLtChars_strAppend (safeLtChars_strAppend (safeLtChars_strAppend
      (safeLtChars_strAppend (safeLtChars_strAppend h (by decide))
        (safeLtChars_escapeHtml _)) (by decide)) (safeLtChars_escapeHtml _)) (by decide)

theorem safeLtChars_formatReportAsHtml (reportData : List ReportItem) :
    safeLtChars (formatReportAsHtml reportData).data = true := by
  rw [formatReportAsHtml]
  suffices hgen : ∀ html : String, safeLtChars html.data = true →
      safeLtChars ((reportData.foldl (fun html category =>
        let categoryPrefix := if category.title == "Pull Requests" then "PRs" else category.title
        category.sections.foldl (fun html sec =>
          let html := html ++ "<h3>" ++ escapeHtml categoryPrefix ++ " - " ++
            escapeHtml sec.title ++ "</h3>\n<ul>\n"
          let html := sec.items.foldl (fun html item =>
            html ++ "  <li><a href=\"" ++ escapeHtml item.url ++ "\">" ++
              escapeHtml (truncateMiddle item.title) ++ "</a></li>\n") html
          html ++ "</ul>\n\n") html) html)).data = true by
    exact hgen "" (by decide)
  induction reportData with
  | nil => intro html h; exact h
  | cons cat rest ih =>
    intro html h
    simp only [List.foldl_cons]
    exact ih _ (safeLtChars_sections_fold cat.sections _ html h)

theorem hasSubSeq_script_eq_false {p l : List Char} (h : safeLtChars l = true) :
    hasSubSeq ('<' :: 's' :: p) l = false := by
  induction l with
  | nil => rfl
  | cons c rest ih =>
    rw [hasSubSeq]
    have htail : hasSubSeq ('<' :: 's' :: p) rest = false := ih (safeLtChars_tail h)
    have hhead : hasPrefixSeq ('<' :: 's' :: p) (c :: rest) = false := by
      by_cases hc : c = '<'
      · subst hc
        cases rest with
        | nil => simp [safeLtChars] at h
        | cons d r2 =>
          rw [safeLtChars] at h
          rcases (Bool.and_eq_true _ _).mp h with ⟨h1, _⟩
          have hok : okAfterLt d = true := by
            simpa using h1
          have hd : ('s' == d) = false := by
            rw [okAfterLt] at hok
            simp only [Bool.or_eq_true, beq_iff_eq] at hok
            rcases hok with (((h | h) | h) | h) | h <;> simp [h]
          rw [hasPrefixSeq, hasPrefixSeq]
          simp [hd]
      · rw [hasPrefixSeq]
        simp [Ne.symm hc]
    rw [htail, hhead]
    rfl

/-- An opened pull request whose title is a script injection attempt. -/
def maliciousEventC4 : GitHubEvent :=
  { id := "m1", type := "PullRequestEvent", created_at := "2024-03-20T10:00:00Z",
    actor := { login := "mallory" }, repo := { name := "r" },
    payload := { action := some "opened",
                 pull_request := some { number := 1, title := "<script>alert(1)</script>",
                                        html_url := "https://github.com/r/pull/1" } } }

/-- C4: for every event list the HTML export of the summary contains no
literal "<script>" substring — every < of interpolated text is escaped to
&lt; and the template's own < are never followed by s — and on the event
list with the title "<script>alert(1)</script>" the escaped form
"&lt;script&gt;" does occur. -/
theorem C4_html_export_escapes :
    (∀ events : List GitHubEvent,
      hasSubSeq "<script>".data (formatReportAsHtml (prepareReportData events)).data = false)
    ∧ hasSubSeq "&lt;script&gt;".data
        (formatReportAsHtml (prepareReportData [maliciousEventC4])).data = true := by
  constructor
  · intro events
    have h : "<script>".data = '<' :: 's' :: "cript>".data := rfl
    rw [h]
    exact hasSubSeq_script_eq_false (safeLtChars_formatReportAsHtml _)
  · decide

/-! ## C6: groupEventsByCategoryAndNumber
(src/app/utils/event-helpers.ts lines 42-82) -/

/-- One (category, number) group: representative title and url plus all
events of the group. -/
structure EventGroup where
  title : String
  url : String
  events : List GitHubEvent
deriving DecidableEq

abbrev InnerGroups := List (String × EventGroup)
abbrev Groups := List (String × InnerGroups)

/-- The five preinitialized category buckets. -/
def initGroups : Groups :=
  [("Pull Requests", []), ("Issues", []), ("Commits", []), ("Repository", []), ("Other", [])]

/-- The number switch: event.payload.pull_request?.number?.toString() ||
"other" — the number is required when the object is present, and its decimal
string is never empty, so only a missing object yields "other". -/
def groupNumberOf (event : GitHubEvent) : String :=
  if event.type == "PullRequestEvent" || event.type == "PullRequestReviewEvent"
      || event.type == "PullRequestReviewCommentEvent" then
    match event.payload.pull_request with
    | some pr => Nat.repr pr.number
    | none => "other"
  else if event.type == "IssuesEvent" || event.type == "IssueCommentEvent" then
    match event.payload.issue with
    | some issue => Nat.repr issue.number
    | none => "other"
  else "other"

/-- The title switch: title || "" collapses a missing object to "". -/
def groupTitleOf (event : GitHubEvent) : String :=
  if event.type == "PullRequestEvent" || event.type == "PullRequestReviewEvent"
      || event.type == "PullRequestReviewCommentEvent" then
    (event.payload.pull_request.map PullRequest.title).getD ""
  else if event.type == "IssuesEvent" || event.type == "IssueCommentEvent" then
    (event.payload.issue.map Issue.title).getD ""
  else ""

/-- Mutation of groups[category]; the outer keys are the five fixed
categories and stay unique, so updating every matching key equals updating
the single one. -/
def updateGroupsAt (gs : Groups) (cat : String) (f : InnerGroups → InnerGroups) : Groups :=
  gs.map (fun kv => if kv.1 == cat then (kv.1, f kv.2) else kv)

/-- The loop body: create the group with the CURRENT event's title and url
when the key is absent (whether or not that title is empty), then push the
event. -/
def groupStep (gs : Groups) (event : GitHubEvent) : Groups :=
  let category := getEventCategory event
  let number := groupNumberOf event
  let title := groupTitleOf event
  let url := getEventUrl event
  updateGroupsAt gs category (fun inner =>
    if inner.any (fun kv => kv.1 == number) then
      inner.map (fun kv =>
        if kv.1 == number then (kv.1, { kv.2 with events := kv.2.events ++ [event] }) else kv)
    else inner ++ [(number, { title := title, url := url, events := [event] })])

/-- groupEventsByCategoryAndNumber (src/app/utils/event-helpers.ts). -/
def groupEventsByCategoryAndNumber (events : List GitHubEvent) : Groups :=
  events.foldl groupStep initGroups

/-- groups[cat][num]. -/
def lookupGroups (gs : Groups) (cat num : String) : Option EventGroup :=
  ((gs.find? (fun kv => kv.1 == cat)).map Prod.snd).bind
    (fun inner => (inner.find? (fun kv => kv.1 == num)).map Prod.snd)

/-- A review-comment record for pull request 4 whose title is empty; it
reaches the grouper first. -/
def emptyTitlePREventC6 : GitHubEvent :=
  { id := "g1", type := "PullRequestReviewCommentEvent", created_at := "t1",
    actor := { login := "a" }, repo := { name := "r" },
    payload := { pull_request := some { number := 4, title := "", html_url := "u4" },
                 comment := some { html_url := "u4c" } } }

/-- A later record for the same pull request 4 with the non-empty title
"Fix". -/
def titledPREventC6 : GitHubEvent :=
  { id := "g2", type := "PullRequestEvent", created_at := "t2",
    actor := { login := "a" }, repo := { name := "r" },
    payload := { action := some "opened",
                 pull_request := some { number := 4, title := "Fix", html_url := "u4" } } }

/-- C6 counterexample: the group for key ("Pull Requests", "4") keeps the
EMPTY title and fallback url of the FIRST record, even though the second
record supplies the non-empty title "Fix" — the claim's "first record that
supplies a non-empty title" rule does not hold. -/
theorem C6_counterexample :
    lookupGroups (groupEventsByCategoryAndNumber [emptyTitlePREventC6, titledPREventC6])
        "Pull Requests" "4" =
      some { title := "", url := "https://github.com/r",
             events := [emptyTitlePREventC6, titledPREventC6] }
    ∧ ((lookupGroups (groupEventsByCategoryAndNumber [emptyTitlePREventC6, titledPREventC6])
        "Pull Requests" "4").map EventGroup.title == some "Fix") = false := by
  constructor
  · decide
  · decide

theorem find_update_keyed {β : Type} (l : List (String × β)) (k cat : String) (f : β → β) :
    (l.map (fun kv => if kv.1 == k then (kv.1, f kv.2) else kv)).find?
        (fun kv => kv.1 == cat) =
      (l.find? (fun kv => kv.1 == cat)).map
        (fun kv => if kv.1 == k then (kv.1, f kv.2) else kv) := by
  induction l with
  | nil => rfl
  | cons kv rest ih =>
    simp only [List.map_cons, List.find?_cons]
    have hkey : (if kv.1 == k then (kv.1, f kv.2) else kv).1 = kv.1 := by
      split <;> rfl
    rw [hkey]
    split
    · rfl
    · exact ih

theorem any_key_updateGroupsAt (gs : Groups) (c t : String) (f : InnerGroups → InnerGroups) :
    (updateGroupsAt gs c f).any (fun kv => kv.1 == t) = gs.any (fun kv => kv.1 == t) := by
  rw [updateGroupsAt, List.any_map]
  congr 1
  funext kv
  simp only [Function.comp]
  split <;> rfl

theorem getEventCategory_mem_five (e : GitHubEvent) :
    getEventCategory e ∈ ["Pull Requests", "Issues", "Commits", "Repository", "Other"] := by
  rw [getEventCategory]
  repeat' first | split | simp

theorem lookupGroups_updateGroupsAt (gs : Groups) (c cat num : String)
    (f : InnerGroups → InnerGroups) :
    lookupGroups (updateGroupsAt gs c f) cat num =
      ((gs.find? (fun kv => kv.1 == cat)).map
        (fun kv => if kv.1 == c then f kv.2 else kv.2)).bind
        (fun inner => (inner.find? (fun kv2 => kv2.1 == num)).map Prod.snd) := by
  rw [lookupGroups, updateGroupsAt, find_update_keyed]
  cases hfind : gs.find? (fun kv => kv.1 == cat) with
  | none => rfl
  | some kv =>
    simp only [Option.map_some']
    have hsnd : (if kv.1 == c then (kv.1, f kv.2) else kv).2 =
        (if kv.1 == c then f kv.2 else kv.2) := by
      split <;> rfl
    rw [hsnd]

theorem lookupGroups_groupStep_miss (gs : Groups) (e : GitHubEvent) (cat num : String)
    (h : ¬(getEventCategory e = cat ∧ groupNumberOf e = num)) :
    lookupGroups (groupStep gs e) cat num = lookupGroups gs cat num := by
  rw [groupStep, lookupGroups_updateGroupsAt, lookupGroups]
  cases hfind : gs.find? (fun kv => kv.1 == cat) with
  | none => rfl
  | some kv =>
    have hkey : kv.1 = cat := by
      have := List.find?_some hfind
      simpa using this
    simp only [Option.map_some', Option.some_bind]
    by_cases hcat : getEventCategory e = cat
    · have hnum : groupNumberOf e ≠ num := fun hn => h ⟨hcat, hn⟩
      rw [hkey, if_pos (by simp [hcat])]
      split
      · rename_i hany
        rw [find_update_keyed kv.2 (groupNumberOf e) num
          (fun g => { g with events := g.events ++ [e] })]
        cases hfind2 : kv.2.find? (fun kv2 => kv2.1 == num) with
        | none => rfl
        | some kv2 =>
          have hkey2 : kv2.1 = num := by
            have := List.find?_some hfind2
            simpa using this
          simp only [Option.map_some']
          rw [hkey2, if_neg (by simp [Ne.symm hnum])]
      · rw [List.find?_append]
        cases hfind2 : kv.2.find? (fun kv2 => kv2.1 == num) with
        | none =>
          simp only [hfind2, Option.none_or, Option.or_none, Option.none_orElse]
          have hb : (groupNumberOf e == num) = false := by simp [hnum]
          simp [List.find?, hb]
        | some kv2 => simp [hfind2]
    · rw [hkey, if_neg (by simp [Ne.symm hcat])]

theorem find_keyed_isSome_of_any {β : Type} (l : List (String × β)) (t : String)
    (h : l.any (fun kv => kv.1 == t) = true) :
    ∃ kv, l.find? (fun kv => kv.1 == t) = some kv := by
  induction l with
  | nil => simp at h
  | cons kv rest ih =>
    rw [List.find?_cons]
    split
    · exact ⟨kv, rfl⟩
    · rename_i hp
      simp only [List.any_cons, Bool.or_eq_true] at h
      rcases h with hkv | hrest
      · rw [hp] at hkv; cases hkv
      · exact ih hrest

theorem lookupGroups_groupStep_hit (gs : Groups) (e : GitHubEvent)
    (hpresent : gs.any (fun kv => kv.1 == getEventCategory e) = true) :
    lookupGroups (groupStep gs e) (getEventCategory e) (groupNumberOf e) =
      some (match lookupGroups gs (getEventCategory e) (groupNumberOf e) with
        | some g => { g with events := g.events ++ [e] }
        | none => { title := groupTitleOf e, url := getEventUrl e, events := [e] }) := by
  rw [groupStep, lookupGroups_updateGroupsAt, lookupGroups]
  rcases find_keyed_isSome_of_any gs (getEventCategory e) hpresent with ⟨kv, hfind⟩
  rw [hfind]
  have hkey : kv.1 = getEventCategory e := by
    have := List.find?_some hfind
    simpa using this
  simp only [Option.map_some', Option.some_bind]
  rw [if_pos (by simp [hkey])]
  split
  · rename_i hany
    rw [find_update_keyed kv.2 (groupNumberOf e) (groupNumberOf e)
      (fun g => { g with events := g.events ++ [e] })]
    rcases find_keyed_isSome_of_any kv.2 (groupNumberOf e) hany with ⟨kv2, hfind2⟩
    rw [hfind2]
    have hkey2 : kv2.1 = groupNumberOf e := by
      have := List.find?_some hfind2
      simpa using this
    simp only [Option.map_some']
    rw [if_pos (by simp [hkey2])]
  · rename_i hany
    have hfind2 : kv.2.find? (fun kv2 => kv2.1 == groupNumberOf e) = none := by
      rw [List.find?_eq_none]
      intro kv2 hmem2
      intro hp2
      exact hany (List.any_eq_true.mpr ⟨kv2, hmem2, hp2⟩)
    rw [List.find?_append, hfind2]
    simp [List.find?]

theorem any_key_groupStep (gs : Groups) (e : GitHubEvent) (t : String) :
    (groupStep gs e).any (fun kv => kv.1 == t) = gs.any (fun kv => kv.1 == t) := by
  rw [groupStep]
  exact any_key_updateGroupsAt gs (getEventCategory e) t _

theorem lookupGroups_foldl_char (evs : List GitHubEvent) (gs : Groups) (cat num : String)
    (hcats : ∀ t, t ∈ ["Pull Requests", "Issues", "Commits", "Repository", "Other"] →
      gs.any (fun kv => kv.1 == t) = true) :
    lookupGroups (evs.foldl groupStep gs) cat num =
      match lookupGroups gs cat num with
      | some g => some { g with events :=
          g.events ++ evs.filter (fun e => getEventCategory e == cat && groupNumberOf e == num) }
      | none =>
        match evs.filter (fun e => getEventCategory e == cat && groupNumberOf e == num) with
        | [] => none
        | e :: rest => some { title := groupTitleOf e, url := getEventUrl e, events := e :: rest } := by
  induction evs generalizing gs with
  | nil =>
    cases hl : lookupGroups gs cat num with
    | none => simp [hl]
    | some g => cases g; simp [hl]
  | cons e rest ih =>
    simp only [List.foldl_cons, List.filter_cons]
    by_cases hp : (getEventCategory e == cat && groupNumberOf e == num) = true
    · have hc' : getEventCategory e = cat := by
        have := ((Bool.and_eq_true _ _).mp hp).1
        simpa using this
      have hn' : groupNumberOf e = num := by
        have := ((Bool.and_eq_true _ _).mp hp).2
        simpa using this
      subst hc'
      subst hn'
      have hpres : gs.any (fun kv => kv.1 == getEventCategory e) = true :=
        hcats _ (getEventCategory_mem_five e)
      have hstep := lookupGroups_groupStep_hit gs e hpres
      have hcats' : ∀ t, t ∈ ["Pull Requests", "Issues", "Commits", "Repository", "Other"] →
          (groupStep gs e).any (fun kv => kv.1 == t) = true := by
        intro t ht
        rw [any_key_groupStep]
        exact hcats t ht
      rw [ih (groupStep gs e) hcats', hstep, hp]
      cases hl : lookupGroups gs (getEventCategory e) (groupNumberOf e) with
      | none => simp
      | some g => simp
    · have hne : ¬(getEventCategory e = cat ∧ groupNumberOf e = num) := by
        intro ⟨hc, hn⟩
        exact hp (by simp [hc, hn])
      have hcats' : ∀ t, t ∈ ["Pull Requests", "Issues", "Commits", "Repository", "Other"] →
          (groupStep gs e).any (fun kv => kv.1 == t) = true := by
        intro t ht
        rw [any_key_groupStep]
        exact hcats t ht
      rw [ih (groupStep gs e) hcats', lookupGroups_groupStep_miss gs e cat num hne]
      simp only [hp]
      split <;> rfl

theorem lookupGroups_initGroups (cat num : String) :
    lookupGroups initGroups cat num = none := by
  rw [lookupGroups, initGroups]
  repeat' first
    | rfl
    | (rw [List.find?_cons]; split)

theorem initGroups_any_key (t : String)
    (ht : t ∈ ["Pull Requests", "Issues", "Commits", "Repository", "Other"]) :
    initGroups.any (fun kv => kv.1 == t) = true := by
  simp only [List.mem_cons, List.not_mem_nil, or_false] at ht
  rcases ht with rfl | rfl | rfl | rfl | rfl <;> decide

/-- C6 (amended): the group stored under (category, number) consists of all
events with that category and number in feed order, with title and url taken
from the FIRST record for the key — regardless of whether its title is
empty — and all subsequent records only appended to the group's events; a
record lacking a resolvable number lands under the literal key "other" of
its category. -/
theorem C6_grouping (events : List GitHubEvent) (cat num : String) :
    (lookupGroups (groupEventsByCategoryAndNumber events) cat num =
      match events.filter (fun e => getEventCategory e == cat && groupNumberOf e == num) with
      | [] => none
      | e :: rest => some { title := groupTitleOf e, url := getEventUrl e, events := e :: rest })
    ∧ (∀ e ∈ events, groupNumberOf e = "other" →
        ∃ g, lookupGroups (groupEventsByCategoryAndNumber events) (getEventCategory e) "other" = some g
          ∧ e ∈ g.events) := by
  have hchar : ∀ c n : String,
      lookupGroups (groupEventsByCategoryAndNumber events) c n =
        match events.filter (fun e => getEventCategory e == c && groupNumberOf e == n) with
        | [] => none
        | e :: rest => some { title := groupTitleOf e, url := getEventUrl e, events := e :: rest } := by
    intro c n
    rw [groupEventsByCategoryAndNumber, lookupGroups_foldl_char events initGroups c n initGroups_any_key]
    rw [lookupGroups_initGroups]
  constructor
  · exact hchar cat num
  · intro e he hother
    have hmem : e ∈ events.filter
        (fun x => getEventCategory x == getEventCategory e && groupNumberOf x == "other") := by
      rw [List.mem_filter]
      exact ⟨he, by simp [hother]⟩
    have h := hchar (getEventCategory e) "other"
    cases hflt : events.filter
        (fun x => getEventCategory x == getEventCategory e && groupNumberOf x == "other") with
    | nil => rw [hflt] at hmem; cases hmem
    | cons f rest =>
      rw [hflt] at h hmem
      refine ⟨{ title := groupTitleOf f, url := getEventUrl f, events := f :: rest }, ?_, ?_⟩
      · simpa using h
      · simpa using hmem

/-- A PushEvent, which has no resolvable issue or pull-request number. -/
def pushEventC6 : GitHubEvent :=
  { id := "ps1", type := "PushEvent", created_at := "2024-03-20T10:00:00Z",
    actor := { login := "alice" }, repo := { name := "r" },
    payload := { head := some "abc123" } }

/-- Witness for C6_grouping: a PushEvent is bucketed under "other" in its
category "Commits". -/
theorem C6_grouping_witness :
    ∃ g, lookupGroups (groupEventsByCategoryAndNumber [pushEventC6])
        (getEventCategory pushEventC6) "other" = some g ∧ pushEventC6 ∈ g.events :=
  (C6_grouping [pushEventC6] "Commits" "other").2 pushEventC6 (by simp) rfl

/-! ## C9: the fetch path (fetchEvents in the main app component) -/

/-- The component state and local-storage mirror touched by fetchEvents: the
in-memory record array, the cached record set ("github-event-cache") and the
last-sync timestamp ("github-event-last-synced"). -/
structure AppState where
  events : List GitHubEvent
  cachedEvents : Option (List GitHubEvent)
  lastSynced : Option String
deriving DecidableEq

/-- The state transition of fetchEvents, with the per-identity network
results passed in: each identity either contributed its event page or an
error message.  allEvents concatenates the successful pages in identity
order; when it is empty (in particular when every identity failed) the
function returns after the failure toast, leaving state and storage
untouched.  Otherwise events are filtered to the date window, sorted newest
first (the comparator subtracts timestamps; ISO strings give the same
order), and state and storage are overwritten only when the filtered list is
non-empty.  Toasts are display-only and not modelled. -/
def fetchEventsModel (st : AppState) (results : List (Except String (List GitHubEvent)))
    (inRange : GitHubEvent → Bool) (now : String) : AppState :=
  let allEvents := results.foldl (fun acc r =>
    match r with
    | Except.ok data => acc ++ data
    | Except.error _ => acc) []
  if allEvents.isEmpty then st
  else
    let filteredEvents := allEvents.filter inRange
    let sorted := stableSort (fun a b => decide (b.created_at < a.created_at)) filteredEvents
    if sorted.isEmpty then st
    else { events := sorted, cachedEvents := some sorted, lastSynced := some now }

theorem fetch_allEvents_nil (results : List (Except String (List GitHubEvent)))
    (acc : List GitHubEvent)
    (hall : ∀ r ∈ results, ∃ msg, r = Except.error msg) :
    results.foldl (fun acc r =>
      match r with
      | Except.ok data => acc ++ data
      | Except.error _ => acc) acc = acc := by
  induction results generalizing acc with
  | nil => rfl
  | cons r rest ih =>
    rcases hall r (List.mem_cons_self r rest) with ⟨msg, rfl⟩
    simp only [List.foldl_cons]
    exact ih acc (fun r' hr' => hall r' (List.mem_cons_of_mem _ hr'))

/-- C9: when the fetch of every tracked identity fails, no events are
obtained, and fetchEvents returns right after collecting the per-identity
errors: the record array, the cached record set and the last-sync timestamp
are all left exactly as they were. -/
theorem C9_total_failure_preserves_state (st : AppState)
    (results : List (Except String (List GitHubEvent)))
    (inRange : GitHubEvent → Bool) (now : String)
    (hall : ∀ r ∈ results, ∃ msg, r = Except.error msg) :
    fetchEventsModel st results inRange now = st := by
  rw [fetchEventsModel]
  rw [fetch_allEvents_nil results [] hall]
  rfl

/-- Witness for C9_total_failure_preserves_state: two identities, both
failing with HTTP errors, leave a concrete non-empty state unchanged. -/
theorem C9_total_failure_preserves_state_witness :
    fetchEventsModel
      { events := [commentEventC10], cachedEvents := some [commentEventC10],
        lastSynced := some "2024-03-19T00:00:00Z" }
      [Except.error "alice: HTTP error 403", Except.error "bob: HTTP error 404"]
      (fun _ => true) "2024-03-20T00:00:00Z" =
      { events := [commentEventC10], cachedEvents := some [commentEventC10],
        lastSynced := some "2024-03-19T00:00:00Z" } :=
  C9_total_failure_preserves_state _ _ _ _ (by
    intro r hr
    simp only [List.mem_cons, List.not_mem_nil, or_false] at hr
    rcases hr with rfl | rfl
    · exact ⟨"alice: HTTP error 403", rfl⟩
    · exact ⟨"bob: HTTP error 404", rfl⟩)
